import Mathlib

/-!
Verification of the `gogithub` client library's core: the generic TTL cache
`ExpireCache`, the branch-to-PR lookup algorithm `FindPRForBranch`, and the
cache-invalidation protocol wrapped around the PR mutations.

Modelling conventions (shallow embedding of the Go source):
* `time.Time` instants and `time.Duration` values are both modelled as `Int`
  (nanoseconds); `t.After(u)` is `u < t` and `t.Add(d)` is `t + d`.
* The Go map backing the cache is an association list with unique keys;
  a `nil` Go map is `none`, an allocated map is `some entries`.
* Each network call (GraphQL query or mutation) is an explicit parameter
  carrying the outcome the remote side would produce, so one Lean function
  application corresponds to one Go call under that oracle.
* Go's `(value, error)` multiple returns become pairs with `Option GoError`;
  functions additionally return the updated cache state and, where the claim
  needs them, a count of `Clear` invocations or a flag recording whether the
  live API was queried.
-/

namespace Gogithub

/-- Lookup in an association list modelling a Go map read `m[k]`. -/
def mapLookup {K A : Type} [DecidableEq K] : List (K × A) → K → Option A
  | [], _ => none
  | (k', a') :: rest, k => if k' = k then some a' else mapLookup rest k

/-- Insert-or-replace modelling a Go map assignment `m[k] = a`. -/
def mapInsert {K A : Type} [DecidableEq K] : List (K × A) → K → A → List (K × A)
  | [], k, a => [(k, a)]
  | (k', a') :: rest, k, a =>
    if k' = k then (k, a) :: rest else (k', a') :: mapInsert rest k a

/-- Removal modelling Go `delete(m, k)`. -/
def mapDelete {K A : Type} [DecidableEq K] : List (K × A) → K → List (K × A)
  | [], _ => []
  | (k', a') :: rest, k =>
    if k' = k then mapDelete rest k else (k', a') :: mapDelete rest k

/-- Go struct `expireValues[V]`: a stored value with its absolute expiry. -/
structure ExpireValues (V : Type) where
  value : V
  expireAt : Int
  deriving Repr, DecidableEq

/-- Go struct `ExpireCache[K, V]`: the backing map (`none` models the nil map
before lazy initialization) and the uniform TTL. The mutex is not modelled:
the embedding is sequential. -/
structure ExpireCache (K V : Type) where
  cache : Option (List (K × ExpireValues V))
  DefaultExpiry : Int
  deriving Repr, DecidableEq

/-- `ExpireCache.Get`: returns `(value, true)` for a non-expired entry
(`v.expireAt.After(now)`, i.e. `now < expireAt`), evicts an expired entry,
and returns `(zero value, false)` otherwise. Also returns the updated cache. -/
def ExpireCache.Get {K V : Type} [DecidableEq K] [Inhabited V]
    (e : ExpireCache K V) (now : Int) (key : K) : (V × Bool) × ExpireCache K V :=
  match e.cache with
  | none => ((default, false), e)
  | some m =>
    match mapLookup m key with
    | some v =>
      if now < v.expireAt then ((v.value, true), e)
      else ((default, false), { e with cache := some (mapDelete m key) })
    | none => ((default, false), e)

/-- `ExpireCache.Clear`: replaces the backing map with a fresh empty one. -/
def ExpireCache.Clear {K V : Type} (e : ExpireCache K V) : ExpireCache K V :=
  { e with cache := some [] }

/-- `ExpireCache.Set`: lazily allocates the map, then stores the value under
`key` with expiry `now + DefaultExpiry`, replacing any previous binding. -/
def ExpireCache.Set {K V : Type} [DecidableEq K]
    (e : ExpireCache K V) (now : Int) (key : K) (value : V) : ExpireCache K V :=
  match e.cache with
  | none => { e with cache := some (mapInsert [] key ⟨value, now + e.DefaultExpiry⟩) }
  | some m => { e with cache := some (mapInsert m key ⟨value, now + e.DefaultExpiry⟩) }

/-- The entry currently bound to `k` in the backing map (`none` both for a
nil map and for an absent key); used to observe cache contents in claims. -/
def ExpireCache.lookupEntry {K V : Type} [DecidableEq K]
    (e : ExpireCache K V) (k : K) : Option (ExpireValues V) :=
  match e.cache with
  | none => none
  | some m => mapLookup m k

theorem mapLookup_mapInsert {K A : Type} [DecidableEq K]
    (m : List (K × A)) (k : K) (a : A) : mapLookup (mapInsert m k a) k = some a := by
  induction m with
  | nil => simp [mapInsert, mapLookup]
  | cons hd tl ih =>
    by_cases h : hd.1 = k
    · simp [mapInsert, h, mapLookup]
    · simpa [mapInsert, h, mapLookup] using ih

theorem mapLookup_mapDelete {K A : Type} [DecidableEq K]
    (m : List (K × A)) (k : K) : mapLookup (mapDelete m k) k = none := by
  induction m with
  | nil => simp [mapDelete, mapLookup]
  | cons hd tl ih =>
    by_cases h : hd.1 = k
    · simpa [mapDelete, h, mapLookup] using ih
    · simpa [mapDelete, h, mapLookup] using ih

theorem lookupEntry_Set {K V : Type} [DecidableEq K]
    (e : ExpireCache K V) (now : Int) (k : K) (v : V) :
    (e.Set now k v).lookupEntry k = some ⟨v, now + e.DefaultExpiry⟩ := by
  cases h : e.cache <;>
    simp [ExpireCache.Set, ExpireCache.lookupEntry, h, mapLookup_mapInsert]

theorem DefaultExpiry_Set {K V : Type} [DecidableEq K]
    (e : ExpireCache K V) (now : Int) (k : K) (v : V) :
    (e.Set now k v).DefaultExpiry = e.DefaultExpiry := by
  cases h : e.cache <;> simp [ExpireCache.Set, h]

/-- A `Get` that found a non-expired entry reports that entry's value. -/
theorem Get_of_lookupEntry_live {K V : Type} [DecidableEq K] [Inhabited V]
    (e : ExpireCache K V) (now : Int) (k : K) (ev : ExpireValues V)
    (hfound : e.lookupEntry k = some ev) (hlive : now < ev.expireAt) :
    e.Get now k = ((ev.value, true), e) := by
  cases h : e.cache with
  | none => simp [ExpireCache.lookupEntry, h] at hfound
  | some m =>
    simp only [ExpireCache.lookupEntry, h] at hfound
    simp [ExpireCache.Get, h, hfound, hlive]

/-- After a missed `Get`, the key has no binding in the returned cache. -/
theorem lookupEntry_after_Get_miss {K V : Type} [DecidableEq K] [Inhabited V]
    (e : ExpireCache K V) (now : Int) (k : K)
    (hmiss : ((e.Get now k).1).2 = false) :
    ((e.Get now k).2).lookupEntry k = none := by
  cases h : e.cache with
  | none => simp [ExpireCache.Get, ExpireCache.lookupEntry, h]
  | some m =>
    cases hl : mapLookup m k with
    | none => simp [ExpireCache.Get, ExpireCache.lookupEntry, h, hl]
    | some v =>
      by_cases hexp : now < v.expireAt
      · simp [ExpireCache.Get, h, hl, hexp] at hmiss
      · simp [ExpireCache.Get, ExpireCache.lookupEntry, h, hl, hexp, mapLookup_mapDelete]

/-- A key absent from the backing map misses `Get` at every time. -/
theorem Get_miss_of_lookupEntry_none {K V : Type} [DecidableEq K] [Inhabited V]
    (e : ExpireCache K V) (now : Int) (k : K)
    (habsent : e.lookupEntry k = none) :
    e.Get now k = ((default, false), e) := by
  cases h : e.cache with
  | none => simp [ExpireCache.Get, h]
  | some m =>
    simp only [ExpireCache.lookupEntry, h] at habsent
    simp [ExpireCache.Get, h, habsent]

/-- C2: `Set(K, V)` followed by `Get(K)` strictly before the TTL has elapsed
returns `(V, true)`; moreover `Set` binds the key to the new value with expiry
`setTime + DefaultExpiry`, unconditionally replacing any previous entry. -/
theorem set_then_get_within_ttl {K V : Type} [DecidableEq K] [Inhabited V]
    (e : ExpireCache K V) (k : K) (v : V) (tSet tGet : Int)
    (h : tGet < tSet + e.DefaultExpiry) :
    ((e.Set tSet k v).Get tGet k).1 = (v, true) ∧
      (e.Set tSet k v).lookupEntry k = some ⟨v, tSet + e.DefaultExpiry⟩ := by
  have hentry := lookupEntry_Set e tSet k v
  refine ⟨?_, hentry⟩
  have := Get_of_lookupEntry_live (e.Set tSet k v) tGet k ⟨v, tSet + e.DefaultExpiry⟩
    hentry h
  simp [this]

/-- C2 witness at a concrete cache, key, value and times. -/
theorem set_then_get_within_ttl_witness :
    ((30 : Int) <
        0 + (ExpireCache.mk (K := String) (V := Int) (some [("b", ⟨2, 100⟩)]) 60).DefaultExpiry) ∧
      (((ExpireCache.mk (K := String) (V := Int) (some [("b", ⟨2, 100⟩)]) 60).Set 0 "a" 7).Get
          30 "a").1 = (7, true) ∧
      ((ExpireCache.mk (K := String) (V := Int) (some [("b", ⟨2, 100⟩)]) 60).Set 0 "a"
          7).lookupEntry "a" = some ⟨7, 0 + 60⟩ :=
  ⟨by decide,
    set_then_get_within_ttl (ExpireCache.mk (some [("b", ⟨2, 100⟩)]) 60) "a" 7 0 30 (by decide)⟩

/-- C3: a `Get` at or past the entry's expiry returns the zero value with
`false` and removes the expired entry from the backing map. -/
theorem get_after_expiry_evicts {K V : Type} [DecidableEq K] [Inhabited V]
    (e : ExpireCache K V) (k : K) (ev : ExpireValues V) (tGet : Int)
    (hfound : e.lookupEntry k = some ev) (hexpired : ev.expireAt ≤ tGet) :
    ((e.Get tGet k).1) = (default, false) ∧
      ((e.Get tGet k).2).lookupEntry k = none := by
  cases h : e.cache with
  | none => simp [ExpireCache.lookupEntry, h] at hfound
  | some m =>
    simp only [ExpireCache.lookupEntry, h] at hfound
    have hnot : ¬ tGet < ev.expireAt := not_lt.mpr hexpired
    constructor
    · simp [ExpireCache.Get, h, hfound, hnot]
    · simp [ExpireCache.Get, ExpireCache.lookupEntry, h, hfound, hnot, mapLookup_mapDelete]

/-- C3 witness: an entry that expired at time 10 observed at time 10. -/
theorem get_after_expiry_evicts_witness :
    (ExpireCache.mk (K := String) (V := Int) (some [("a", ⟨1, 10⟩)]) 60).lookupEntry "a" =
        some ⟨1, 10⟩ ∧
      (10 : Int) ≤ 10 ∧
      (((ExpireCache.mk (K := String) (V := Int) (some [("a", ⟨1, 10⟩)]) 60).Get 10 "a").1) =
        (default, false) ∧
      (((ExpireCache.mk (K := String) (V := Int) (some [("a", ⟨1, 10⟩)]) 60).Get 10
            "a").2).lookupEntry "a" = none := by
  refine ⟨by decide, by decide, ?_⟩
  have := get_after_expiry_evicts (ExpireCache.mk (K := String) (V := Int)
    (some [("a", ⟨1, 10⟩)]) 60) "a" ⟨1, 10⟩ 10 (by decide) (by decide)
  exact this

/-- C4: after `Clear()` every key misses on the next `Get` regardless of its
expiry state, and the backing map has been replaced by an empty one. -/
theorem clear_empties_cache {K V : Type} [DecidableEq K] [Inhabited V]
    (e : ExpireCache K V) (t : Int) (k : K) :
    ((e.Clear).Get t k).1 = (default, false) ∧ (e.Clear).cache = some [] := by
  constructor
  · simp [ExpireCache.Clear, ExpireCache.Get, mapLookup]
  · rfl

/-- Go struct `findPrKey`: the composite cache key (owner, name, branch). -/
structure findPrKey where
  owner : String
  name : String
  branch : String
  deriving Repr, DecidableEq

/-- Go struct `findPrValue`: the cached PR number (0 is the negative
sentinel meaning "no open PR for this branch"). -/
structure findPrValue where
  number : Int
  deriving Repr, DecidableEq, Inhabited

/-- The errors `github.go` builds with `fmt.Errorf`; a constructor per format
string, carrying the formatted arguments and any wrapped (`%w`) cause. -/
inductive GoError where
  | failedToQueryPRs (cause : String)
  | failedToFindPR (number : Int)
  | failedToFindPRWrapped (cause : GoError)
  | unableToAddPRReview (cause : String)
  | multiplePRsForBranch (branch : String)
  | failedToCreatePullRequest (cause : String)
  deriving Repr, DecidableEq

/-- `FindPullRequestOid`: queries the PR's node id; a transport failure or a
zero id is an error. `queryResult` is the remote side's answer. -/
def FindPullRequestOid (number : Int) (queryResult : Except String Int) :
    Int × Option GoError :=
  match queryResult with
  | .error e => (0, some (.failedToQueryPRs e))
  | .ok id => if id = 0 then (0, some (.failedToFindPR number)) else (id, none)

/-- `AcceptPullRequest`: `defer findPrCache.Clear()` runs on every return
path, so each branch of the translation ends by clearing the cache and
contributes one `Clear` call to the returned count. `oidQueryResult` is the
oracle for the inner `FindPullRequestOid` query and `mutateResult` for the
`addPullRequestReview` mutation (`some e` is a transport error). -/
def AcceptPullRequest (cache : ExpireCache findPrKey findPrValue) (number : Int)
    (oidQueryResult : Except String Int) (mutateResult : Option String) :
    Option GoError × ExpireCache findPrKey findPrValue × Nat :=
  match FindPullRequestOid number oidQueryResult with
  | (_, some err) => (some (.failedToFindPRWrapped err), cache.Clear, 1)
  | (_, none) =>
    match mutateResult with
    | some e => (some (.unableToAddPRReview e), cache.Clear, 1)
    | none => (none, cache.Clear, 1)

/-- `MergePullRequest`: same shape as `AcceptPullRequest` — a deferred
`Clear`, the internal-id lookup, then the `mergePullRequest` mutation. -/
def MergePullRequest (cache : ExpireCache findPrKey findPrValue) (number : Int)
    (oidQueryResult : Except String Int) (mutateResult : Option String) :
    Option GoError × ExpireCache findPrKey findPrValue × Nat :=
  match FindPullRequestOid number oidQueryResult with
  | (_, some err) => (some (.failedToFindPRWrapped err), cache.Clear, 1)
  | (_, none) =>
    match mutateResult with
    | some e => (some (.unableToAddPRReview e), cache.Clear, 1)
    | none => (none, cache.Clear, 1)

/-- `CreatePullRequest`: a deferred `Clear`, then the `createPullRequest`
mutation whose oracle either fails or yields the new PR's number. -/
def CreatePullRequest (cache : ExpireCache findPrKey findPrValue)
    (mutateResult : Except String Int) :
    (Int × Option GoError) × ExpireCache findPrKey findPrValue × Nat :=
  match mutateResult with
  | .error e => ((0, some (.failedToCreatePullRequest e)), cache.Clear, 1)
  | .ok number => ((number, none), cache.Clear, 1)

/-- `FindPRForBranch`: check the cache under (owner, name, branch); on a hit
return the cached number; on a miss run the live query (`queryResult` lists
the numbers of the open PRs the remote side reports for the branch), caching
a zero-result sentinel or a unique match, and failing without caching on a
transport error or on multiple matches. `tGet`/`tSet` are the clock readings
of the cache read and the (potential) cache write; the final component
records whether the live query was performed. -/
def FindPRForBranch (cache : ExpireCache findPrKey findPrValue) (tGet tSet : Int)
    (owner name branch : String) (queryResult : Except String (List Int)) :
    (Int × Option GoError) × ExpireCache findPrKey findPrValue × Bool :=
  let cacheKey : findPrKey := ⟨owner, name, branch⟩
  let gr := cache.Get tGet cacheKey
  if gr.1.2 then ((gr.1.1.number, none), gr.2, false)
  else
    match queryResult with
    | .error e => ((0, some (.failedToQueryPRs e)), gr.2, true)
    | .ok [] => ((0, none), (gr.2).Set tSet cacheKey ⟨0⟩, true)
    | .ok [pr] => ((pr, none), (gr.2).Set tSet cacheKey ⟨pr⟩, true)
    | .ok _ => ((0, some (.multiplePRsForBranch branch)), gr.2, true)

theorem DefaultExpiry_Get {K V : Type} [DecidableEq K] [Inhabited V]
    (e : ExpireCache K V) (now : Int) (k : K) :
    ((e.Get now k).2).DefaultExpiry = e.DefaultExpiry := by
  cases h : e.cache with
  | none => simp [ExpireCache.Get, h]
  | some m =>
    cases hl : mapLookup m k with
    | none => simp [ExpireCache.Get, h, hl]
    | some v =>
      by_cases hexp : now < v.expireAt <;> simp [ExpireCache.Get, h, hl, hexp]

/-- A cache whose backing map has no binding for the composite key forces
`FindPRForBranch` to perform the live query. -/
theorem findpr_queries_live_of_absent (cache : ExpireCache findPrKey findPrValue)
    (tGet tSet : Int) (owner name branch : String)
    (queryResult : Except String (List Int))
    (habsent : cache.lookupEntry ⟨owner, name, branch⟩ = none) :
    (FindPRForBranch cache tGet tSet owner name branch queryResult).2.2 = true := by
  have h := Get_miss_of_lookupEntry_none cache tGet ⟨owner, name, branch⟩ habsent
  rcases queryResult with e | nodes
  · simp [FindPRForBranch, h]
  · rcases nodes with _ | ⟨a, _ | ⟨b, rest⟩⟩ <;> simp [FindPRForBranch, h]

/-- C1: in `CreatePullRequest`, `AcceptPullRequest` and `MergePullRequest`
the deferred `findPrCache.Clear()` runs exactly once on every return path —
success, mutation failure, and (for accept/merge) failure of the preliminary
internal-id lookup — so the cache is empty when the operation returns. -/
theorem clear_called_once_on_every_path :
    ∀ (cache : ExpireCache findPrKey findPrValue) (number : Int)
      (oidQueryResult : Except String Int) (mutateResult : Option String)
      (createResult : Except String Int) (t : Int) (k : findPrKey),
      ((AcceptPullRequest cache number oidQueryResult mutateResult).2.2 = 1 ∧
        (((AcceptPullRequest cache number oidQueryResult mutateResult).2.1).Get t k).1 =
          (default, false)) ∧
      ((MergePullRequest cache number oidQueryResult mutateResult).2.2 = 1 ∧
        (((MergePullRequest cache number oidQueryResult mutateResult).2.1).Get t k).1 =
          (default, false)) ∧
      ((CreatePullRequest cache createResult).2.2 = 1 ∧
        (((CreatePullRequest cache createResult).2.1).Get t k).1 = (default, false)) := by
  intro cache number oidQueryResult mutateResult createResult t k
  have hclear : ((cache.Clear).Get t k).1 = (default, false) := by
    simp [ExpireCache.Clear, ExpireCache.Get, mapLookup]
  refine ⟨?_, ?_, ?_⟩
  · rcases hq : FindPullRequestOid number oidQueryResult with ⟨id, err⟩
    cases err <;> cases mutateResult <;> simp [AcceptPullRequest, hq, hclear]
  · rcases hq : FindPullRequestOid number oidQueryResult with ⟨id, err⟩
    cases err <;> cases mutateResult <;> simp [MergePullRequest, hq, hclear]
  · cases createResult <;> simp [CreatePullRequest, hclear]

/-- C5: on a cache miss with zero live results, `FindPRForBranch` returns
`(0, nil)` and stores the sentinel 0 under (owner, name, branch) with a
fresh expiry `tSet + DefaultExpiry`. -/
theorem findpr_zero_results_caches_sentinel
    (cache : ExpireCache findPrKey findPrValue) (tGet tSet : Int)
    (owner name branch : String)
    (hmiss : ((cache.Get tGet ⟨owner, name, branch⟩).1).2 = false) :
    FindPRForBranch cache tGet tSet owner name branch (.ok []) =
      ((0, none),
        ((cache.Get tGet ⟨owner, name, branch⟩).2).Set tSet ⟨owner, name, branch⟩ ⟨0⟩,
        true) ∧
      ((FindPRForBranch cache tGet tSet owner name branch (.ok [])).2.1).lookupEntry
          ⟨owner, name, branch⟩ =
        some ⟨⟨0⟩, tSet + cache.DefaultExpiry⟩ := by
  have hrun : FindPRForBranch cache tGet tSet owner name branch (.ok []) =
      ((0, none),
        ((cache.Get tGet ⟨owner, name, branch⟩).2).Set tSet ⟨owner, name, branch⟩ ⟨0⟩,
        true) := by
    simp [FindPRForBranch, hmiss]
  refine ⟨hrun, ?_⟩
  rw [hrun]
  rw [lookupEntry_Set, DefaultExpiry_Get]

/-- C5 witness: an empty cache, a zero-result live query. -/
theorem findpr_zero_results_caches_sentinel_witness :
    ((((ExpireCache.mk (K := findPrKey) (V := findPrValue) none 60).Get 5
            ⟨"o", "n", "b"⟩).1).2 = false) ∧
      FindPRForBranch (ExpireCache.mk none 60) 5 6 "o" "n" "b" (.ok []) =
        ((0, none),
          (((ExpireCache.mk (K := findPrKey) (V := findPrValue) none 60).Get 5
                ⟨"o", "n", "b"⟩).2).Set 6 ⟨"o", "n", "b"⟩ ⟨0⟩,
          true) ∧
      ((FindPRForBranch (ExpireCache.mk none 60) 5 6 "o" "n" "b" (.ok [])).2.1).lookupEntry
          ⟨"o", "n", "b"⟩ =
        some ⟨⟨0⟩, 6 + (ExpireCache.mk (K := findPrKey) (V := findPrValue) none 60).DefaultExpiry⟩ :=
  ⟨by decide,
    findpr_zero_results_caches_sentinel (ExpireCache.mk none 60) 5 6 "o" "n" "b" (by decide)⟩

/-- C6: on a cache miss with more than one live result, `FindPRForBranch`
fails with the multiple-matches error naming the branch, stores nothing (the
cache is exactly what the initial read left), and an immediately repeated
lookup for the same key performs a live query again. -/
theorem findpr_multiple_matches_errors_no_cache
    (cache : ExpireCache findPrKey findPrValue) (tGet tSet tGet2 tSet2 : Int)
    (owner name branch : String) (nodes : List Int)
    (queryResult2 : Except String (List Int))
    (hmiss : ((cache.Get tGet ⟨owner, name, branch⟩).1).2 = false)
    (hmulti : 2 ≤ nodes.length) :
    (FindPRForBranch cache tGet tSet owner name branch (.ok nodes)).1 =
      (0, some (.multiplePRsForBranch branch)) ∧
      (FindPRForBranch cache tGet tSet owner name branch (.ok nodes)).2.1 =
        (cache.Get tGet ⟨owner, name, branch⟩).2 ∧
      (FindPRForBranch
          ((FindPRForBranch cache tGet tSet owner name branch (.ok nodes)).2.1)
          tGet2 tSet2 owner name branch queryResult2).2.2 = true := by
  rcases nodes with _ | ⟨a, _ | ⟨b, rest⟩⟩
  · simp at hmulti
  · simp at hmulti
  · have hrun : FindPRForBranch cache tGet tSet owner name branch (.ok (a :: b :: rest)) =
        ((0, some (.multiplePRsForBranch branch)),
          (cache.Get tGet ⟨owner, name, branch⟩).2, true) := by
      simp [FindPRForBranch, hmiss]
    refine ⟨by rw [hrun], by rw [hrun], ?_⟩
    rw [hrun]
    exact findpr_queries_live_of_absent _ tGet2 tSet2 owner name branch queryResult2
      (lookupEntry_after_Get_miss cache tGet ⟨owner, name, branch⟩ hmiss)

/-- C6 witness: an empty cache, two live matches, then a repeated lookup. -/
theorem findpr_multiple_matches_errors_no_cache_witness :
    ((((ExpireCache.mk (K := findPrKey) (V := findPrValue) none 60).Get 5
            ⟨"o", "n", "b"⟩).1).2 = false) ∧
      2 ≤ ([3, 4] : List Int).length ∧
      (FindPRForBranch (ExpireCache.mk none 60) 5 6 "o" "n" "b" (.ok [3, 4])).1 =
        (0, some (.multiplePRsForBranch "b")) ∧
      (FindPRForBranch (ExpireCache.mk none 60) 5 6 "o" "n" "b" (.ok [3, 4])).2.1 =
        ((ExpireCache.mk (K := findPrKey) (V := findPrValue) none 60).Get 5
            ⟨"o", "n", "b"⟩).2 ∧
      (FindPRForBranch
          ((FindPRForBranch (ExpireCache.mk none 60) 5 6 "o" "n" "b" (.ok [3, 4])).2.1)
          7 8 "o" "n" "b" (.ok [9])).2.2 = true :=
  ⟨by decide, by decide,
    findpr_multiple_matches_errors_no_cache (ExpireCache.mk none 60) 5 6 7 8 "o" "n" "b"
      [3, 4] (.ok [9]) (by decide) (by decide)⟩

/-- C7: on a non-expired cache hit — the sentinel 0 included — the call
returns the cached number with no error and performs no live query. -/
theorem findpr_cache_hit_no_query
    (cache : ExpireCache findPrKey findPrValue) (tGet tSet : Int)
    (owner name branch : String) (queryResult : Except String (List Int))
    (hhit : ((cache.Get tGet ⟨owner, name, branch⟩).1).2 = true) :
    FindPRForBranch cache tGet tSet owner name branch queryResult =
      ((((cache.Get tGet ⟨owner, name, branch⟩).1).1.number, none),
        (cache.Get tGet ⟨owner, name, branch⟩).2, false) := by
  simp [FindPRForBranch, hhit]

/-- C7 witness: a live entry caching the negative sentinel 0 is served as a
hit, with a no-PRs answer that a live query would contradict. -/
theorem findpr_cache_hit_no_query_witness :
    ((((ExpireCache.mk (K := findPrKey) (V := findPrValue)
              (some [(⟨"o", "n", "b"⟩, ⟨⟨0⟩, 100⟩)]) 60).Get 5 ⟨"o", "n", "b"⟩).1).2 = true) ∧
      FindPRForBranch (ExpireCache.mk (some [(⟨"o", "n", "b"⟩, ⟨⟨0⟩, 100⟩)]) 60) 5 6 "o" "n"
          "b" (.ok [42]) =
        ((((((ExpireCache.mk (K := findPrKey) (V := findPrValue)
                  (some [(⟨"o", "n", "b"⟩, ⟨⟨0⟩, 100⟩)]) 60).Get 5
                ⟨"o", "n", "b"⟩).1).1).number, none),
          ((ExpireCache.mk (K := findPrKey) (V := findPrValue)
                (some [(⟨"o", "n", "b"⟩, ⟨⟨0⟩, 100⟩)]) 60).Get 5 ⟨"o", "n", "b"⟩).2,
          false) :=
  ⟨by decide,
    findpr_cache_hit_no_query (ExpireCache.mk (some [(⟨"o", "n", "b"⟩, ⟨⟨0⟩, 100⟩)]) 60) 5 6
      "o" "n" "b" (.ok [42]) (by decide)⟩

/-- C10 counterexample: with an entry for the key already expired, a failed
live query does change the cache — the initial read lazily evicts that
entry — so the call does not leave the cache completely unchanged, even
though the miss and query-failure hypotheses of the claim hold. -/
theorem findpr_query_failure_changes_cache_cex :
    ((((ExpireCache.mk (K := findPrKey) (V := findPrValue)
              (some [(⟨"o", "n", "b"⟩, ⟨⟨5⟩, 10⟩)]) 60).Get 10 ⟨"o", "n", "b"⟩).1).2 =
        false) ∧
      (FindPRForBranch (ExpireCache.mk (some [(⟨"o", "n", "b"⟩, ⟨⟨5⟩, 10⟩)]) 60) 10 10 "o"
            "n" "b" (.error "boom")).1 = (0, some (.failedToQueryPRs "boom")) ∧
      ¬ (FindPRForBranch (ExpireCache.mk (some [(⟨"o", "n", "b"⟩, ⟨⟨5⟩, 10⟩)]) 60) 10 10
            "o" "n" "b" (.error "boom")).2.1 =
          ExpireCache.mk (some [(⟨"o", "n", "b"⟩, ⟨⟨5⟩, 10⟩)]) 60 := by
  decide

/-- C10 (amended): on a cache miss with a failed live query, the call
returns 0 with the wrapped error and adds no entry: the cache is exactly
what the initial read left (that read may have lazily evicted an expired
entry for the key), so the next lookup for the key queries live again. -/
theorem findpr_query_failure_no_store
    (cache : ExpireCache findPrKey findPrValue) (tGet tSet tGet2 tSet2 : Int)
    (owner name branch : String) (e : String)
    (queryResult2 : Except String (List Int))
    (hmiss : ((cache.Get tGet ⟨owner, name, branch⟩).1).2 = false) :
    (FindPRForBranch cache tGet tSet owner name branch (.error e)).1 =
      (0, some (.failedToQueryPRs e)) ∧
      (FindPRForBranch cache tGet tSet owner name branch (.error e)).2.1 =
        (cache.Get tGet ⟨owner, name, branch⟩).2 ∧
      (FindPRForBranch
          ((FindPRForBranch cache tGet tSet owner name branch (.error e)).2.1)
          tGet2 tSet2 owner name branch queryResult2).2.2 = true := by
  have hrun : FindPRForBranch cache tGet tSet owner name branch (.error e) =
      ((0, some (.failedToQueryPRs e)), (cache.Get tGet ⟨owner, name, branch⟩).2, true) := by
    simp [FindPRForBranch, hmiss]
  refine ⟨by rw [hrun], by rw [hrun], ?_⟩
  rw [hrun]
  exact findpr_queries_live_of_absent _ tGet2 tSet2 owner name branch queryResult2
    (lookupEntry_after_Get_miss cache tGet ⟨owner, name, branch⟩ hmiss)

/-- C10 (amended) witness: an empty cache and a failed live query. -/
theorem findpr_query_failure_no_store_witness :
    ((((ExpireCache.mk (K := findPrKey) (V := findPrValue) none 60).Get 5
            ⟨"o", "n", "b"⟩).1).2 = false) ∧
      (FindPRForBranch (ExpireCache.mk none 60) 5 6 "o" "n" "b" (.error "boom")).1 =
        (0, some (.failedToQueryPRs "boom")) ∧
      (FindPRForBranch (ExpireCache.mk none 60) 5 6 "o" "n" "b" (.error "boom")).2.1 =
        ((ExpireCache.mk (K := findPrKey) (V := findPrValue) none 60).Get 5
            ⟨"o", "n", "b"⟩).2 ∧
      (FindPRForBranch
          ((FindPRForBranch (ExpireCache.mk none 60) 5 6 "o" "n" "b" (.error "boom")).2.1)
          7 8 "o" "n" "b" (.ok [])).2.2 = true :=
  ⟨by decide,
    findpr_query_failure_no_store (ExpireCache.mk none 60) 5 6 7 8 "o" "n" "b" "boom"
      (.ok []) (by decide)⟩

/-- A method of the public client interface: its name, the fields it takes,
whether it yields a typed result besides the error, and whether it reports
a descriptive error. -/
structure MethodSig where
  name : String
  args : List String
  returnsTypedResult : Bool
  returnsError : Bool
  deriving Repr, DecidableEq

/-- The `GitHub` interface exactly as declared in the current revision of
`github.go` — the one that also declares `EnablePullRequestAutoMerge`,
`FindPullRequest`, `AddPRComment` and `TriggerWorkflow`. -/
def githubInterfaceMethods : List MethodSig :=
  [⟨"CreatePullRequest",
      ["ctx", "remoteRepositoryId", "baseRefName", "remoteRefName", "title", "body"],
      true, true⟩,
    ⟨"RepositoryInfo", ["ctx", "owner", "name"], true, true⟩,
    ⟨"FindPRForBranch", ["ctx", "owner", "name", "branch"], true, true⟩,
    ⟨"Self", ["ctx"], true, true⟩,
    ⟨"AcceptPullRequest", ["ctx", "approvalmessage", "owner", "name", "number"], false, true⟩,
    ⟨"MergePullRequest", ["ctx", "owner", "name", "number"], false, true⟩,
    ⟨"EnablePullRequestAutoMerge", ["ctx", "owner", "name", "number"], false, true⟩,
    ⟨"FindPullRequest", ["ctx", "owner", "name", "number"], true, true⟩,
    ⟨"AddPRComment", ["ctx", "owner", "name", "number", "body"], false, true⟩,
    ⟨"FindPullRequestOid", ["ctx", "owner", "name", "number"], true, true⟩,
    ⟨"GetAccessToken", ["ctx"], true, true⟩,
    ⟨"TriggerWorkflow", ["ctx", "owner", "repo", "workflow_id", "ref", "inputs"], false, true⟩]

/-- The operations §1 of the spec enumerates for the public interface. -/
inductive SpecOperation where
  | findPRForBranch
  | createPR
  | acceptPR
  | mergePR
  | enableAutoMerge
  | addComment
  | triggerWorkflow
  | viewerSelf
  | repositoryInfo
  deriving Repr, DecidableEq

/-- The interface method implementing each spec operation. -/
def methodForOperation : SpecOperation → String
  | .findPRForBranch => "FindPRForBranch"
  | .createPR => "CreatePullRequest"
  | .acceptPR => "AcceptPullRequest"
  | .mergePR => "MergePullRequest"
  | .enableAutoMerge => "EnablePullRequestAutoMerge"
  | .addComment => "AddPRComment"
  | .triggerWorkflow => "TriggerWorkflow"
  | .viewerSelf => "Self"
  | .repositoryInfo => "RepositoryInfo"

/-- The identifying fields each spec operation must take. -/
def identifyingFields : SpecOperation → List String
  | .findPRForBranch => ["owner", "name", "branch"]
  | .createPR => ["remoteRepositoryId", "title"]
  | .acceptPR => ["owner", "name", "number"]
  | .mergePR => ["owner", "name", "number"]
  | .enableAutoMerge => ["owner", "name", "number"]
  | .addComment => ["owner", "name", "number"]
  | .triggerWorkflow => ["owner", "repo", "workflow_id", "ref"]
  | .viewerSelf => []
  | .repositoryInfo => ["owner", "name"]

/-- C9: every operation the spec enumerates is exposed by the public client
interface — the `GitHub` interface of `github.go` — by a method taking that
operation's identifying fields and returning a descriptive error alongside
any typed result. -/
theorem github_exposes_spec_operations :
    ∀ op : SpecOperation,
      ∃ m ∈ githubInterfaceMethods,
        m.name = methodForOperation op ∧
          (∀ f ∈ identifyingFields op, f ∈ m.args) ∧ m.returnsError = true := by
  intro op
  cases op <;> decide

end Gogithub
